import Mathlib

set_option maxRecDepth 4000

/-!
# Verification of the QuantCalendar market synchronisation pipeline

A shallow embedding, in Lean 4, of the market-reconciliation and
shock-detection code of the QuantCalendar repository:

* `src/my-calendar/src/backend/server.ts` (second part: `shockDetector.ts`):
  `detectShock`, `checkShockAlert`, `cleanupOldShocks`;
* `src/my-calendar/src/backend/marketUpdater.ts`: `updateMarket`,
  `updateMarkets` (the variant that overwrites descriptive fields);
* `src/unnamed/part_001` (first variant of `marketUpdater.ts`):
  `isMarketResolved`, the field-isolating `updateMarket`, and the
  per-record step of its `updateMarkets` loop;
* `src/unnamed/part_003` (both variants of `normalize.ts`):
  `normalizeGammaEvent`.

Conventions of the embedding:

* JavaScript numbers are modelled as exact rationals (`ℚ`); timestamps
  (`Date.now()` values, epoch milliseconds) as integers (`ℤ`).  `NaN`
  outcomes of parsing are modelled as `Option.none`.
* Optional / possibly-`undefined` string fields are modelled as `String`
  with `""` standing for absent where JS truthiness treats the two alike,
  or as `Option` where the distinction matters.
* Mutable module state (the `recentShocks` array, the Firestore document)
  is passed and returned explicitly; every function of the source becomes
  a pure Lean function on that state.
* Fallible external effects (Firestore writes, the snapshot fetch) are
  modelled by explicit fault-injection parameters, mirroring the
  `try`/`catch` structure of the source.
-/

/-- A JS `number | string` volume value, as stored in `volume` fields. -/
inductive VolumeVal where
  | num (q : ℚ)
  | str (s : String)
deriving DecidableEq

/-- A date string, abstracted by the format classes that
`isMarketResolved` (src/unnamed/part_001, lines 96-152) distinguishes:
`ymd` for plain `YYYY-MM-DD` strings (compared at calendar-day
granularity), `instant` for strings carrying a time component or numeric
timestamps (compared as exact epoch-millisecond instants), and `invalid`
for unparseable strings (`isNaN(date.getTime())`). -/
inductive DateVal where
  | ymd (y m d : ℤ)
  | instant (ms : ℤ)
  | invalid
deriving DecidableEq

/-- An entry of an upstream `tags` array: `{slug?, label?}`, with `""`
modelling an absent field. -/
structure GammaTag where
  slug : String := ""
  label : String := ""
deriving DecidableEq

/-- An upstream market record (`GammaMarket` in `types.ts`), including the
`any`-typed extra fields that `src/unnamed/part_001` probes for prices and
event metadata.  `""` / `none` / `[]` model absent fields. -/
structure GammaMarket where
  id : String := ""
  question : String := ""
  volume : Option VolumeVal := none
  endDate : Option DateVal := none
  yesPrice : Option ℚ := none
  closed : Bool := false
  resolved : Bool := false
  lastTradePrice : Option ℚ := none
  bestBid : Option ℚ := none
  price : Option ℚ := none
  yes_price : Option ℚ := none
  outcomePrices : List ℚ := []
  volumeUsd : Option ℚ := none
  eventTitle : String := ""
  eventTags : Option (List GammaTag) := none
  title : String := ""
  tags : Option (List GammaTag) := none
deriving DecidableEq

/-- An upstream event (`GammaEvent` in `types.ts`). -/
structure GammaEvent where
  id : String := ""
  title : String := ""
  tags : List GammaTag := []
  markets : List GammaMarket := []
deriving DecidableEq

/-- `NormalizedMarket` of `types.ts`.  The `Price` field is the string
`yesPrice.toFixed(2)` in the source; it is modelled by its numeric value
(the composition `parseFloat(toFixed(2))` is exactly rounding to two
decimals, see `round2`). -/
structure NormalizedMarket where
  marketId : String
  Catalyst_Name : String
  Question : String
  Price : ℚ
  Volume : VolumeVal
  EndDate : Option DateVal
  Tags : String
deriving DecidableEq

/-- The output shape of the second `normalizeGammaEvent` variant
(src/unnamed/part_003, lines 108-177), which carries no `marketId`. -/
structure NormalizedMarket2 where
  Catalyst_Name : String
  Question : String
  Price : ℚ
  Volume : VolumeVal
  EndDate : Option DateVal
  Tags : String
deriving DecidableEq

/-- A persisted market record (`MarketData` in `App.tsx`).  `resolveDate`
is a date string in the source; it is modelled as `Option DateVal` with
`none` standing for the empty string. -/
structure MarketData where
  id : String
  title : String := ""
  resolveDate : Option DateVal := none
  probability : ℚ
  previousProbability : Option ℚ := none
  changeDelta : Option ℚ := none
  lastUpdated : ℤ := 0
  source : String := "n8n"
  catalyst : Option String := none
  question : Option String := none
  volume : Option VolumeVal := none
  tags : Option (List String) := none
  marketId : String := ""
deriving DecidableEq

/-- `MarketShock` of `types.ts`. -/
structure MarketShock where
  marketId : String
  previousProbability : ℚ
  newProbability : ℚ
  delta : ℚ
  timestamp : ℤ
deriving DecidableEq

/-- `MarketShockAlert` of `types.ts`. -/
structure MarketShockAlert where
  id : String
  shockCount : ℕ
  windowStart : ℤ
  windowEnd : ℤ
  shocks : List MarketShock
  createdAt : ℤ
deriving DecidableEq

/-- The aggregate counters returned by `updateMarkets`. -/
structure UpdateResult where
  updated : ℕ
  errors : ℕ
  shocks : ℕ
deriving DecidableEq

/-! ## JavaScript-semantics helpers -/

/-- Split a character list into its longest prefix of decimal digits and
the rest. -/
def takeDigits : List Char → List Char × List Char
  | [] => ([], [])
  | c :: cs =>
    if c.isDigit then
      let p := takeDigits cs
      (c :: p.1, p.2)
    else ([], c :: cs)

/-- Numeric value of a list of decimal digits. -/
def digitsVal (ds : List Char) : ℕ :=
  ds.foldl (fun a c => 10 * a + (c.toNat - 48)) 0

/-- `parseFloat` on a character list: optional sign, decimal digits with
an optional fraction, and an optional exponent; trailing garbage is
ignored, and `none` models the `NaN` result when no digits are found.
(The `Infinity` literal is not modelled; it cannot arise from the
currency-formatted volume strings this code parses.) -/
def jsParseFloatCore (cs0 : List Char) : Option ℚ :=
  let sp : ℚ × List Char :=
    match cs0 with
    | '-' :: rest => (-1, rest)
    | '+' :: rest => (1, rest)
    | _ => (1, cs0)
  let ip := takeDigits sp.2
  let fp : List Char × List Char :=
    match ip.2 with
    | '.' :: rest => takeDigits rest
    | _ => ([], ip.2)
  if ip.1.isEmpty ∧ fp.1.isEmpty then none
  else
    let mant : ℚ := (digitsVal ip.1 : ℚ) + (digitsVal fp.1 : ℚ) / ((10 : ℚ) ^ fp.1.length)
    let expv : ℤ :=
      match fp.2 with
      | 'e' :: rest | 'E' :: rest =>
        let se : ℤ × List Char :=
          match rest with
          | '-' :: r => (-1, r)
          | '+' :: r => (1, r)
          | _ => (1, rest)
        let ed := takeDigits se.2
        if ed.1.isEmpty then 0 else se.1 * (digitsVal ed.1 : ℤ)
      | _ => 0
    some (sp.1 * mant * (10 : ℚ) ^ expv)

/-- `parseFloat` on a string. -/
def jsParseFloat (s : String) : Option ℚ :=
  jsParseFloatCore s.data

/-- `s.replace(/[,$\s]/g, '')`: strip thousands separators, dollar signs
and whitespace. -/
def stripCurrency (s : String) : String :=
  ⟨s.data.filter fun c => ¬(c = ',' ∨ c = '$' ∨ c.isWhitespace)⟩

/-- `parseFloat(x.toFixed(2))`: round to two decimals.  ECMAScript
`toFixed` picks the larger candidate on ties, i.e. rounds half toward
`+∞`, which is `⌊q·100 + 1/2⌋ / 100`. -/
def round2 (q : ℚ) : ℚ :=
  ((q * 100 + 1 / 2).floor : ℚ) / 100

/-- JS `a || b` on strings (the empty string is falsy). -/
def jsOrS (a b : String) : String :=
  if a = "" then b else a

/-- JS `a || b` where `a` is an optional string field (`undefined` and
`""` are both falsy). -/
def jsOrOS (a : Option String) (b : String) : String :=
  match a with
  | some s => jsOrS s b
  | none => b

/-- JS `Number(x) || 0` on an optional numeric field: `undefined`/`NaN`
and `0` collapse to `0`. -/
def jsNumOr0 (o : Option ℚ) : ℚ :=
  o.getD 0

/-- Collapse every maximal run of whitespace to a single underscore
(`replace(/\s+/g, '_')`). -/
def collapseWsToUnderscore (s : String) : String :=
  let step : List Char × Bool → Char → List Char × Bool := fun acc c =>
    if c.isWhitespace then
      if acc.2 then acc else (acc.1 ++ ['_'], true)
    else (acc.1 ++ [c], false)
  ⟨(s.data.foldl step ([], false)).1⟩

/-- `tagsToString` (identical in every variant): map each tag to
`slug || label`, drop falsy results, lower-case, collapse whitespace to
underscores, and join with `|`. -/
def tagsToString (tags : List GammaTag) : String :=
  String.intercalate "|"
    (((tags.map fun t => jsOrS t.slug t.label).filter fun s => s ≠ "").map
      fun s => collapseWsToUnderscore s.toLower)

/-! ## Shock detector (`shockDetector.ts`, second part of `server.ts`)

The module-level mutable array `recentShocks` becomes an explicit
`List MarketShock` threaded through each operation; `Date.now()` becomes
the explicit parameter `now`. -/

def SHOCK_THRESHOLD : ℚ := 5 / 100

def SHOCK_COUNT_THRESHOLD : ℕ := 5

def SHOCK_WINDOW_MS : ℤ := 15 * 60 * 1000

/-- The `while (length > 0 && shocks[0].timestamp < cutoff) shift()` loop:
drop entries from the front while they are older than `cutoff`. -/
def pruneFront (cutoff : ℤ) : List MarketShock → List MarketShock
  | [] => []
  | s :: rest => if s.timestamp < cutoff then pruneFront cutoff rest else s :: rest

/-- `detectShock` (server.ts lines 100-129): if `|new - previous| ≥ 0.05`,
append a shock stamped `now`, prune entries older than the 15-minute
window from the front, and return the shock; otherwise return `null` and
leave the list unchanged. -/
def detectShock (now : ℤ) (marketId : String) (previousProbability newProbability : ℚ)
    (recentShocks : List MarketShock) : Option MarketShock × List MarketShock :=
  let delta := |newProbability - previousProbability|
  if SHOCK_THRESHOLD ≤ delta then
    let shock : MarketShock :=
      { marketId := marketId, previousProbability := previousProbability,
        newProbability := newProbability, delta := delta, timestamp := now }
    (some shock, pruneFront (now - SHOCK_WINDOW_MS) (recentShocks ++ [shock]))
  else
    (none, recentShocks)

/-- `checkShockAlert` (server.ts lines 135-161): count the retained shocks
whose timestamp lies within the last 15 minutes; if at least 5, return an
alert.  The source also groups the qualifying shocks per market into a
local `marketShockCounts` map, but never reads it (dead local), so the
grouping is omitted here.  The list itself is returned unchanged,
mirroring that the source never mutates `recentShocks` on this path. -/
def checkShockAlert (now : ℤ) (recentShocks : List MarketShock) :
    Option MarketShockAlert × List MarketShock :=
  let windowStart := now - SHOCK_WINDOW_MS
  let windowShocks := recentShocks.filter fun s => windowStart ≤ s.timestamp
  if SHOCK_COUNT_THRESHOLD ≤ windowShocks.length then
    (some { id := "shock-" ++ toString now, shockCount := windowShocks.length,
            windowStart := windowStart, windowEnd := now,
            shocks := windowShocks, createdAt := now }, recentShocks)
  else
    (none, recentShocks)

/-- `cleanupOldShocks` (server.ts lines 166-171): drop entries older than
twice the window from the front. -/
def cleanupOldShocks (now : ℤ) (recentShocks : List MarketShock) : List MarketShock :=
  pruneFront (now - SHOCK_WINDOW_MS * 2) recentShocks

/-! ## Event normalizer

Two variants of `normalizeGammaEvent` appear in `src/unnamed/part_003`.
The first (lines 24-84) keeps a `marketId` on its output, filters only by
known id and a valid `yesPrice` in `[0,1]`, and is the variant imported
by `src/my-calendar/src/backend/marketUpdater.ts` (whose matching uses
`normalizedMarket.marketId`).  The second (lines 108-177) applies the
mandatory liquidity / status / price-band / identity filters and the
sort-descending-and-cap-at-5 rule. -/

/-- Parsed volume of an upstream market, as computed by the filter and
comparator of the second `normalizeGammaEvent` variant:
`typeof v === 'string' ? parseFloat(v.replace(/[,$\s]/g, '')) : Number(v) || 0`.
`none` models the `NaN` outcome of a failed string parse. -/
def volKeyOf (m : GammaMarket) : Option ℚ :=
  match m.volume with
  | none => some 0
  | some (.num q) => some q
  | some (.str s) => jsParseFloat (stripCurrency s)

/-- The liquidity test `volume < 20000` with JS `NaN` semantics:
a `NaN` volume compares false, so it does NOT fail the test. -/
def volBelowMin (m : GammaMarket) : Bool :=
  match volKeyOf m with
  | some v => decide (v < 20000)
  | none => false

/-- Total sort key for the volume-descending comparator.  When the parse
yields `NaN` the JS comparator returns `NaN`, which `Array.prototype.sort`
treats as `0` (leaving such elements in implementation-defined positions);
the embedding models that unspecified case by the key `0`. -/
def volKeyQ (m : GammaMarket) : ℚ :=
  (volKeyOf m).getD 0

/-- JS `market.volume || 0` on a `number | string` field: `undefined`,
`0` and `""` are falsy. -/
def jsVolOr0 (o : Option VolumeVal) : VolumeVal :=
  match o with
  | none => .num 0
  | some (.num q) => .num q
  | some (.str s) => if s = "" then .num 0 else .str s

namespace Normalize1

/-- First variant of `normalizeGammaEvent` (src/unnamed/part_003, lines
24-84): keep only markets whose id is known, whose `yesPrice` is a number
in `[0,1]`; normalise the volume by attempting a currency parse on string
volumes (keeping the string when unparseable). -/
def normalizeGammaEvent (event : GammaEvent) (existingMarketIds : List String) :
    List NormalizedMarket :=
  if event.title = "" then []
  else
    let tagsString := tagsToString event.tags
    event.markets.filterMap fun m =>
      if m.id = "" ∨ m.id ∉ existingMarketIds then none
      else
        match m.yesPrice with
        | none => none
        | some p =>
          if p < 0 ∨ 1 < p then none
          else
            let volume : VolumeVal :=
              match jsVolOr0 m.volume with
              | .num q => .num q
              | .str s =>
                match jsParseFloat (stripCurrency s) with
                | some q => .num q
                | none => .str s
            some { marketId := m.id, Catalyst_Name := event.title,
                   Question := m.question, Price := round2 p,
                   Volume := volume, EndDate := m.endDate, Tags := tagsString }

end Normalize1

namespace Normalize2

/-- The mandatory per-market filter of the second `normalizeGammaEvent`
variant (src/unnamed/part_003, lines 129-149): liquidity (`volume ≥
20000`), status (not closed, not resolved), price band (`0.01 < yesPrice
< 0.99`, boundaries rejected), and identity (`id` non-empty and known). -/
def marketPasses (existingMarketIds : List String) (m : GammaMarket) : Bool :=
  if volBelowMin m then false
  else if m.closed || m.resolved then false
  else
    let yesPrice := jsNumOr0 m.yesPrice
    if yesPrice ≤ 1 / 100 ∨ 99 / 100 ≤ yesPrice then false
    else if m.id = "" then false
    else decide (m.id ∈ existingMarketIds)

/-- The volume-descending sort order (`(a, b) => volB - volA`). -/
def volDesc (a b : GammaMarket) : Prop :=
  volKeyQ b ≤ volKeyQ a

instance : DecidableRel volDesc := fun a b =>
  inferInstanceAs (Decidable (volKeyQ b ≤ volKeyQ a))

/-- `validMarkets`: filter, sort by volume descending, keep the top 5
(src/unnamed/part_003, lines 128-160). -/
def validMarkets (existingMarketIds : List String) (event : GammaEvent) :
    List GammaMarket :=
  (List.insertionSort volDesc (event.markets.filter (marketPasses existingMarketIds))).take 5

/-- Second variant of `normalizeGammaEvent` (src/unnamed/part_003, lines
108-177): drop untitled events, then flatten `validMarkets` to the
normalized shape. -/
def normalizeGammaEvent (event : GammaEvent) (existingMarketIds : List String) :
    List NormalizedMarket2 :=
  if event.title = "" then []
  else
    let tagsString := tagsToString event.tags
    (validMarkets existingMarketIds event).map fun m =>
      { Catalyst_Name := event.title, Question := m.question,
        Price := round2 (jsNumOr0 m.yesPrice), Volume := jsVolOr0 m.volume,
        EndDate := m.endDate, Tags := tagsString }

end Normalize2

/-! ## Market updater, variant of `src/unnamed/part_001` (lines 1-611)

This variant skips resolved markets (`isMarketResolved`), extracts the
price by probing a prioritized list of upstream field names, and its
`updateMarket` writes only the four price-related fields
(`marketRef.update`, not a merge of the whole record). -/

/-- Strict lexicographic comparison of `(year, month, day)` triples:
`new Date(y1,m1,d1) < new Date(y2,m2,d2)` for date-only values. -/
def ymdLt (y1 m1 d1 y2 m2 d2 : ℤ) : Bool :=
  decide (y1 < y2 ∨ (y1 = y2 ∧ (m1 < m2 ∨ (m1 = m2 ∧ d1 < d2))))

namespace Part001

/-- `isMarketResolved` (src/unnamed/part_001, lines 96-152): decide
whether a market's end date has already passed.  A missing date or a
parse failure yields `false` (assume not resolved).  Plain `YYYY-MM-DD`
dates are compared at calendar-day granularity against `today` (the
current date's components); dates carrying a time component, and numeric
timestamps, are compared as exact instants against `now`. -/
def isMarketResolved (endDate resolveDate : Option DateVal) (now : ℤ)
    (todayY todayM todayD : ℤ) : Bool :=
  match endDate.or resolveDate with
  | none => false
  | some d =>
    match d with
    | .ymd y m dd => ymdLt y m dd todayY todayM todayD
    | .instant ms => decide (ms < now)
    | .invalid => false

/-- `updateMarket` (src/unnamed/part_001, lines 333-374): run shock
detection, then persist ONLY `probability`, `lastUpdated`,
`previousProbability` and `changeDelta` (`marketRef.update(updateData)`),
intentionally leaving title, question, catalyst, volume, resolveDate and
tags as imported.  `failWrites` injects a Firestore write failure (the
`catch` turns it into a `false` return); the returned record is the
document as persisted on success. -/
def updateMarket (now : ℤ) (marketId : String) (normalized : NormalizedMarket)
    (existingMarket : MarketData) (failWrites : List String)
    (shocks : List MarketShock) : Bool × MarketData × List MarketShock :=
  let newProbability := normalized.Price
  let previousProbability := existingMarket.probability
  let det := detectShock now marketId previousProbability newProbability shocks
  let updated : MarketData :=
    { existingMarket with
      probability := newProbability
      lastUpdated := now
      previousProbability := some existingMarket.probability
      changeDelta := some (newProbability - previousProbability) }
  if existingMarket.id ∈ failWrites then (false, updated, det.2)
  else (true, updated, det.2)

/-- The prioritized probe for an upstream price (src/unnamed/part_001,
lines 530-536): `lastTradePrice`, `bestBid`, `price`, `yesPrice`,
`yes_price`, `outcomePrices[0]`, first defined wins. -/
def extractPrice (g : GammaMarket) : Option ℚ :=
  g.lastTradePrice.or (g.bestBid.or (g.price.or (g.yesPrice.or
    (g.yes_price.or g.outcomePrices.head?))))

/-- The `Volume` of the normalized record built inline in the part_001
reconciliation loop (line 563): `g.volume || g.volumeUsd ||
existingMarket.volume || 0` with JS truthiness. -/
def volumeFallback (g : GammaMarket) (existingMarket : MarketData) : VolumeVal :=
  match jsVolOr0 g.volume with
  | .str s => .str s
  | .num q =>
    if q ≠ 0 then .num q
    else
      match g.volumeUsd with
      | some u => if u ≠ 0 then .num u else jsVolOr0 existingMarket.volume
      | none => jsVolOr0 existingMarket.volume

/-- The `Tags` of that normalized record (lines 565-567). -/
def tagsFallback (g : GammaMarket) (existingMarket : MarketData) : String :=
  match g.eventTags with
  | some ts => tagsToString ts
  | none =>
    match g.tags with
    | some ts => tagsToString ts
    | none =>
      match existingMarket.tags with
      | some l => String.intercalate "|" l
      | none => ""

/-- One iteration of the main reconciliation loop of
`src/unnamed/part_001` `updateMarkets` (lines 474-589) for a single
persisted record: skip when the document id is missing, when
`isMarketResolved` holds for the stored resolve date, when no upstream
match exists, or when upstream reports the market closed/resolved;
otherwise extract the price (falling back to the stored probability when
invalid, or skipping the record when even that is unusable), build the
normalized record, and call `updateMarket`.  The result's first component
is `none` when the record was skipped, and `some (ok, doc)` with the
write outcome and would-be document otherwise.  (The `any`-typed
alternate end-date field names of line 492 and 564 are collapsed into the
single modelled `resolveDate`/`endDate` fields.) -/
def processRecord (now : ℤ) (todayY todayM todayD : ℤ) (existingMarket : MarketData)
    (gamma : Option GammaMarket) (failWrites : List String)
    (shocks : List MarketShock) : Option (Bool × MarketData) × List MarketShock :=
  if existingMarket.id = "" then (none, shocks)
  else if isMarketResolved existingMarket.resolveDate existingMarket.resolveDate
      now todayY todayM todayD then (none, shocks)
  else
    match gamma with
    | none => (none, shocks)
    | some g =>
      if g.closed || g.resolved then (none, shocks)
      else
        let priceValue := extractPrice g
        let priceValid :=
          match priceValue with
          | none => false
          | some v => decide (0 ≤ v ∧ v ≤ 1)
        let existingOk := decide (0 ≤ existingMarket.probability ∧ existingMarket.probability ≤ 1)
        if !priceValid && !existingOk then
          (none, shocks)
        else
          let finalPrice :=
            match priceValue with
            | some v => if 0 ≤ v ∧ v ≤ 1 then v else existingMarket.probability
            | none => existingMarket.probability
          let normalized : NormalizedMarket :=
            { marketId := existingMarket.marketId
              Catalyst_Name := jsOrS g.eventTitle (jsOrS g.title
                (jsOrOS existingMarket.catalyst (jsOrS existingMarket.title "Unknown Event")))
              Question := jsOrS g.question
                (jsOrOS existingMarket.question (jsOrS existingMarket.title ""))
              Price := round2 finalPrice
              Volume := volumeFallback g existingMarket
              EndDate := g.endDate.or existingMarket.resolveDate
              Tags := tagsFallback g existingMarket }
          let u := updateMarket now existingMarket.marketId normalized existingMarket
            failWrites shocks
          (some (u.1, u.2.1), u.2.2)

end Part001

/-! ## Market updater, `src/my-calendar/src/backend/marketUpdater.ts`

This variant performs no resolve-date check; its `updateMarket` merges a
record that also rewrites the descriptive fields from the normalized
upstream data (`marketRef.set({...existingMarket, ...updateData},
{merge: true})`). -/

namespace MyCalendar

/-- `updateMarket` (marketUpdater.ts, lines 177-219): run shock
detection, then merge the update record: new probability, refreshed
`lastUpdated`, descriptive fields taken from the normalized record (with
`||` fallbacks to the existing values), `volume` overwritten
unconditionally, and `previousProbability`/`changeDelta` always set to
the pre-update stored probability and the raw difference.  `failWrites`
injects a Firestore write failure (caught, returning `false`). -/
def updateMarket (now : ℤ) (marketId : String) (normalized : NormalizedMarket)
    (existingMarket : MarketData) (failWrites : List String)
    (shocks : List MarketShock) : Bool × MarketData × List MarketShock :=
  let newProbability := normalized.Price
  let previousProbability := existingMarket.probability
  let det := detectShock now marketId previousProbability newProbability shocks
  let updated : MarketData :=
    { existingMarket with
      probability := newProbability
      lastUpdated := now
      title := jsOrS normalized.Question existingMarket.title
      catalyst := if normalized.Catalyst_Name = "" then existingMarket.catalyst
                  else some normalized.Catalyst_Name
      question := if normalized.Question = "" then existingMarket.question
                  else some normalized.Question
      volume := some normalized.Volume
      resolveDate := normalized.EndDate.or existingMarket.resolveDate
      tags := if normalized.Tags = "" then existingMarket.tags
              else some (normalized.Tags.splitOn "|")
      previousProbability := some existingMarket.probability
      changeDelta := some (newProbability - previousProbability) }
  if existingMarket.id ∈ failWrites then (false, updated, det.2)
  else (true, updated, det.2)

/-- The inner loop body of `updateMarkets` (marketUpdater.ts, lines
284-307) for one normalized market: look the record up by
`normalizedMarket.marketId` in the map keyed by document id, skip when
absent, otherwise call `updateMarket`; on success increment `updated`
(and `shocks` when `|new - old| ≥ 0.05`), on failure increment
`errors`. -/
def processNormalized (now : ℤ) (docs : List MarketData) (failWrites : List String)
    (acc : UpdateResult × List MarketShock) (nm : NormalizedMarket) :
    UpdateResult × List MarketShock :=
  match docs.find? fun d => d.id = nm.marketId with
  | none => acc
  | some existingMarket =>
    let u := updateMarket now existingMarket.id nm existingMarket failWrites acc.2
    if u.1 then
      let newProb := nm.Price
      let oldProb := existingMarket.probability
      ({ acc.1 with
          updated := acc.1.updated + 1
          shocks := acc.1.shocks + (if SHOCK_THRESHOLD ≤ |newProb - oldProb| then 1 else 0) },
       u.2.2)
    else
      ({ acc.1 with errors := acc.1.errors + 1 }, u.2.2)

/-- The outer loop body of `updateMarkets` (lines 274-315) for one
upstream event: normalize it (first normalizer variant) and process each
normalized market in order. -/
def processEvent (now : ℤ) (docs : List MarketData) (existingMarketIds : List String)
    (failWrites : List String) (acc : UpdateResult × List MarketShock)
    (event : GammaEvent) : UpdateResult × List MarketShock :=
  (Normalize1.normalizeGammaEvent event existingMarketIds).foldl
    (processNormalized now docs failWrites) acc

/-- `updateMarkets` (marketUpdater.ts, lines 224-336): clean up old
shocks, terminate as a no-op when no existing market ids are known, fetch
the persisted snapshot (`snapshot : Except Unit _` models the one
unguarded Firestore read, whose failure is caught by the top-level
`catch`, incrementing the error counter on the partial result and
returning it as a structured value), terminate when upstream returns no
events, otherwise fold over the events and finally run the alert check.
Returns the counters, the final shock-detector state, and the alert (if
any) that would be persisted. -/
def updateMarkets (now : ℤ) (existingMarketIds : List String)
    (snapshot : Except Unit (List MarketData)) (events : List GammaEvent)
    (failWrites : List String) (shocks0 : List MarketShock) :
    UpdateResult × List MarketShock × Option MarketShockAlert :=
  let shocks1 := cleanupOldShocks now shocks0
  if existingMarketIds.isEmpty then (⟨0, 0, 0⟩, shocks1, none)
  else
    match snapshot with
    | .error _ => (⟨0, 1, 0⟩, shocks1, none)
    | .ok docs =>
      if events.isEmpty then (⟨0, 0, 0⟩, shocks1, none)
      else
        let r := events.foldl (processEvent now docs existingMarketIds failWrites)
          (⟨0, 0, 0⟩, shocks1)
        let alert := (checkShockAlert now r.2).1
        (r.1, r.2, alert)

end MyCalendar

/-! ## Theorems -/

/-- **C5** (confirmed): `detectShock(marketId, previous, new)` computes
`delta = |new - previous|` and, exactly when `delta ≥ 0.05`, appends a
shock stamped with the current time, prunes entries older than the
15-minute window from the front, and returns the shock; when
`delta < 0.05` it returns `null` and leaves the list unchanged.  In
particular `detectShock(id, 0.40, 0.46)` returns a shock and
`detectShock(id, 0.40, 0.44)` returns none. -/
theorem detectShock_spec (now : ℤ) (marketId : String) (p n : ℚ)
    (shocks : List MarketShock) :
    (SHOCK_THRESHOLD ≤ |n - p| →
      detectShock now marketId p n shocks =
        (some ⟨marketId, p, n, |n - p|, now⟩,
         pruneFront (now - SHOCK_WINDOW_MS) (shocks ++ [⟨marketId, p, n, |n - p|, now⟩]))) ∧
    (|n - p| < SHOCK_THRESHOLD →
      detectShock now marketId p n shocks = (none, shocks)) ∧
    ((detectShock now marketId (2/5) (23/50) shocks).1.isSome = true) ∧
    ((detectShock now marketId (2/5) (11/25) shocks).1 = none) := by
  refine ⟨fun h => ?_, fun h => ?_, ?_, ?_⟩
  · rw [detectShock, if_pos h]
  · rw [detectShock, if_neg (not_le.mpr h)]
  · rw [detectShock, if_pos (by norm_num [SHOCK_THRESHOLD, abs_of_nonneg])]
    rfl
  · rw [detectShock, if_neg (by norm_num [SHOCK_THRESHOLD, abs_of_nonneg])]

theorem detectShock_spec_witness :
    (detectShock 1000 "m" (2/5) (23/50) []).1.isSome = true ∧
    (detectShock 1000 "m" (2/5) (11/25) []).1 = none ∧
    (detectShock 1000 "m" (2/5) (11/25) []).2 = [] := by
  have h1 := (detectShock_spec 1000 "m" (2/5) (23/50) []).1
    (by norm_num [SHOCK_THRESHOLD, abs_of_nonneg])
  have h2 := (detectShock_spec 1000 "m" (2/5) (11/25) []).2.1
    (by norm_num [SHOCK_THRESHOLD, abs_of_nonneg])
  rw [h1, h2]
  exact ⟨rfl, rfl, rfl⟩

/-- **C4** (corrected), counterexample: the claim states the returned
alert's window bounds run from the oldest qualifying shock's timestamp to
the current time; but `checkShockAlert` always sets
`windowStart = now - 15min`.  Here all five retained shocks have
timestamp `999000` (the oldest qualifying timestamp), yet the returned
alert's `windowStart` is `1000000 - 900000 = 100000 ≠ 999000`. -/
theorem checkShockAlert_windowStart_counterexample :
    ((checkShockAlert 1000 (List.replicate 5 ⟨"m", 1/2, 3/5, 1/10, 500⟩)).1.map
        MarketShockAlert.windowStart) = some (-899000) ∧
    ((List.replicate 5 (⟨"m", 1/2, 3/5, 1/10, 500⟩ : MarketShock)).all
        fun e => e.timestamp = 500) = true ∧
    (-899000 : ℤ) ≠ 500 := by
  refine ⟨by decide, by decide, by decide⟩

/-- **C4** (corrected), amended claim: `checkShockAlert` returns an alert
iff at least 5 retained shocks have timestamps within the last 15 minutes
(`timestamp ≥ now - 15min`); the alert's `shockCount` is that count, its
`shocks` field lists the qualifying shocks, the shock list itself is left
unchanged — but the window bounds are `[now - 15min, now]`, NOT from the
oldest qualifying shock's timestamp. -/
theorem checkShockAlert_spec (now : ℤ) (s : List MarketShock) :
    (SHOCK_COUNT_THRESHOLD ≤ (s.filter fun e => now - SHOCK_WINDOW_MS ≤ e.timestamp).length →
      checkShockAlert now s =
        (some { id := "shock-" ++ toString now
                shockCount := (s.filter fun e => now - SHOCK_WINDOW_MS ≤ e.timestamp).length
                windowStart := now - SHOCK_WINDOW_MS
                windowEnd := now
                shocks := s.filter fun e => now - SHOCK_WINDOW_MS ≤ e.timestamp
                createdAt := now }, s)) ∧
    ((s.filter fun e => now - SHOCK_WINDOW_MS ≤ e.timestamp).length < SHOCK_COUNT_THRESHOLD →
      checkShockAlert now s = (none, s)) := by
  constructor
  · intro h
    rw [checkShockAlert]
    simp only [if_pos h]
  · intro h
    rw [checkShockAlert]
    simp only [if_neg (not_le.mpr h)]

theorem checkShockAlert_spec_witness :
    (∃ a, checkShockAlert 1000 (List.replicate 5 ⟨"m", 1/2, 3/5, 1/10, 500⟩) =
        (some a, List.replicate 5 ⟨"m", 1/2, 3/5, 1/10, 500⟩) ∧
      a.shockCount = 5 ∧ a.windowStart = 1000 - SHOCK_WINDOW_MS ∧ a.windowEnd = 1000) ∧
    checkShockAlert 1000 [⟨"m", 1/2, 3/5, 1/10, 500⟩] =
      (none, [⟨"m", 1/2, 3/5, 1/10, 500⟩]) := by
  have h1 := (checkShockAlert_spec 1000
    (List.replicate 5 ⟨"m", 1/2, 3/5, 1/10, 500⟩)).1 (by decide)
  have h2 := (checkShockAlert_spec 1000 [⟨"m", 1/2, 3/5, 1/10, 500⟩]).2 (by decide)
  refine ⟨⟨_, h1, by decide, rfl, rfl⟩, h2⟩

/-- **C10** (confirmed): the alert threshold counts shock events, not
distinct markets: a retained list of at least 5 shocks that all carry one
and the same `marketId` and lie within the 15-minute window suffices for
`checkShockAlert` to return an alert whose `shockCount` is the number of
shocks (the per-market grouping computed inside the source function is a
dead local and does not influence the decision or the result). -/
theorem checkShockAlert_counts_events_not_markets (now : ℤ) (id : String)
    (s : List MarketShock)
    (hid : ∀ e ∈ s, e.marketId = id)
    (hin : ∀ e ∈ s, now - SHOCK_WINDOW_MS ≤ e.timestamp)
    (hlen : SHOCK_COUNT_THRESHOLD ≤ s.length) :
    ∃ a, (checkShockAlert now s).1 = some a ∧ a.shockCount = s.length ∧ a.shocks = s := by
  have hfilter : (s.filter fun e => now - SHOCK_WINDOW_MS ≤ e.timestamp) = s :=
    List.filter_eq_self.mpr fun e he => decide_eq_true (hin e he)
  rw [checkShockAlert]
  simp only [hfilter, if_pos hlen]
  exact ⟨_, rfl, rfl, rfl⟩

theorem checkShockAlert_counts_events_not_markets_witness :
    ∃ a, (checkShockAlert 1000 (List.replicate 5 ⟨"same-market", 1/10, 9/10, 4/5, 900⟩)).1
        = some a ∧ a.shockCount = 5 ∧
      a.shocks = List.replicate 5 ⟨"same-market", 1/10, 9/10, 4/5, 900⟩ := by
  obtain ⟨a, h1, h2, h3⟩ := checkShockAlert_counts_events_not_markets 1000 "same-market"
    (List.replicate 5 ⟨"same-market", 1/10, 9/10, 4/5, 900⟩)
    (by intro e he; rw [List.eq_of_mem_replicate he]) (by decide) (by decide)
  exact ⟨a, h1, by rw [h2]; rfl, h3⟩

/-- **C1** (corrected), counterexample: the claim states that when the
absolute difference between the new and stored probability is below the
0.001 epsilon, `previousProbability` and `changeDelta` keep their prior
stored values.  But `updateMarket` of the reconciliation path has no
epsilon test at all: with stored probability `0.5`, prior
`previousProbability = 0.3` and prior `changeDelta = 0.2`, an update to
the identical price `0.5` (difference `0 < 0.001`) overwrites
`previousProbability` with `0.5` and `changeDelta` with `0`, erasing the
last genuine change record. -/
theorem updateMarket_epsilon_counterexample :
    |((1:ℚ)/2) - 1/2| < 1/1000 ∧
    ((MyCalendar.updateMarket 100 "m1"
        { marketId := "m1", Catalyst_Name := "c", Question := "q", Price := 1/2,
          Volume := .num 25000, EndDate := none, Tags := "" }
        { id := "m1", title := "t", probability := 1/2,
          previousProbability := some (3/10), changeDelta := some (1/5),
          lastUpdated := 0 }
        [] []).2.1.previousProbability = some (1/2)) ∧
    ((MyCalendar.updateMarket 100 "m1"
        { marketId := "m1", Catalyst_Name := "c", Question := "q", Price := 1/2,
          Volume := .num 25000, EndDate := none, Tags := "" }
        { id := "m1", title := "t", probability := 1/2,
          previousProbability := some (3/10), changeDelta := some (1/5),
          lastUpdated := 0 }
        [] []).2.1.changeDelta = some (1/2 - 1/2)) ∧
    some ((1:ℚ)/2) ≠ some (3/10) ∧ some ((1:ℚ)/2 - 1/2) ≠ some (1/5) := by
  refine ⟨by norm_num, ?_, ?_, by norm_num, by norm_num⟩
  · rw [MyCalendar.updateMarket]
    norm_num
  · rw [MyCalendar.updateMarket]
    norm_num

/-- **C1** (corrected), amended claim: for every reconciliation update of
a matched market record — including every update where the absolute
difference between the new and stored probability is below the 0.001
epsilon — the persisted `previousProbability` is unconditionally set to
the pre-update stored probability and `changeDelta` to
`newProbability - storedProbability` (the epsilon-suppression of the
prior change record exists only in the JSON-import path, not in the
reconciliation path), while `lastUpdated` still advances. -/
theorem updateMarket_no_delta_suppression (now : ℤ) (mid : String)
    (nm : NormalizedMarket) (ex : MarketData) (fw : List String)
    (s : List MarketShock)
    (h : |nm.Price - ex.probability| < 1/1000) :
    ((MyCalendar.updateMarket now mid nm ex fw s).2.1.previousProbability
        = some ex.probability) ∧
    ((MyCalendar.updateMarket now mid nm ex fw s).2.1.changeDelta
        = some (nm.Price - ex.probability)) ∧
    ((MyCalendar.updateMarket now mid nm ex fw s).2.1.lastUpdated = now) := by
  rw [MyCalendar.updateMarket]
  split
  · exact ⟨rfl, rfl, rfl⟩
  · exact ⟨rfl, rfl, rfl⟩

theorem updateMarket_no_delta_suppression_witness :
    |((1:ℚ)/2) - 1/2| < 1/1000 ∧
    ((MyCalendar.updateMarket 100 "m1"
        { marketId := "m1", Catalyst_Name := "c", Question := "q", Price := 1/2,
          Volume := .num 25000, EndDate := none, Tags := "" }
        { id := "m1", title := "t", probability := 1/2,
          previousProbability := some (3/10), changeDelta := some (1/5),
          lastUpdated := 0 }
        [] []).2.1.previousProbability = some (1/2)) ∧
    ((MyCalendar.updateMarket 100 "m1"
        { marketId := "m1", Catalyst_Name := "c", Question := "q", Price := 1/2,
          Volume := .num 25000, EndDate := none, Tags := "" }
        { id := "m1", title := "t", probability := 1/2,
          previousProbability := some (3/10), changeDelta := some (1/5),
          lastUpdated := 0 }
        [] []).2.1.lastUpdated = 100) := by
  have h := updateMarket_no_delta_suppression 100 "m1"
    { marketId := "m1", Catalyst_Name := "c", Question := "q", Price := 1/2,
      Volume := .num 25000, EndDate := none, Tags := "" }
    { id := "m1", title := "t", probability := 1/2,
      previousProbability := some (3/10), changeDelta := some (1/5),
      lastUpdated := 0 }
    [] [] (by norm_num)
  exact ⟨by norm_num, h.1, h.2.2⟩

/-- **C2** (corrected), counterexample: the claim states that EVERY
reconciliation update leaves the descriptive fields bit-for-bit identical;
but `updateMarket` of `src/my-calendar/src/backend/marketUpdater.ts`
rewrites them from the normalized record: with existing title `"Old"` and
normalized question `"New"`, the merged document's `title` and `question`
become `"New"`, and `volume` is overwritten unconditionally. -/
theorem updateMarket_overwrites_descriptive_fields :
    ((MyCalendar.updateMarket 100 "m1"
        { marketId := "m1", Catalyst_Name := "Cat", Question := "New", Price := 1/2,
          Volume := .num 30000, EndDate := none, Tags := "" }
        { id := "m1", title := "Old", probability := 1/2, question := some "Old",
          volume := some (.num 20000), lastUpdated := 0 }
        [] []).2.1.title = "New") ∧
    ((MyCalendar.updateMarket 100 "m1"
        { marketId := "m1", Catalyst_Name := "Cat", Question := "New", Price := 1/2,
          Volume := .num 30000, EndDate := none, Tags := "" }
        { id := "m1", title := "Old", probability := 1/2, question := some "Old",
          volume := some (.num 20000), lastUpdated := 0 }
        [] []).2.1.volume = some (.num 30000)) ∧
    "New" ≠ "Old" ∧ some (VolumeVal.num 30000) ≠ some (.num 20000) := by
  refine ⟨?_, ?_, by decide, by norm_num⟩
  · rw [MyCalendar.updateMarket]
    rfl
  · rw [MyCalendar.updateMarket]
    rfl

/-- **C2** (corrected), amended claim: the `updateMarket` of the
`src/unnamed/part_001` variant (which persists via `marketRef.update`
with only price fields) changes exactly `probability`, `lastUpdated`,
`previousProbability` and `changeDelta` and leaves `title`, `question`,
`catalyst`, `volume`, `tags` and `resolveDate` bit-for-bit identical;
the `my-calendar` variant of `updateMarket`, by contrast, does overwrite
the descriptive fields from the upstream-normalized record (see the
counterexample). -/
theorem part001_updateMarket_field_isolation (now : ℤ) (mid : String)
    (nm : NormalizedMarket) (ex : MarketData) (fw : List String)
    (s : List MarketShock) :
    ((Part001.updateMarket now mid nm ex fw s).2.1.title = ex.title) ∧
    ((Part001.updateMarket now mid nm ex fw s).2.1.question = ex.question) ∧
    ((Part001.updateMarket now mid nm ex fw s).2.1.catalyst = ex.catalyst) ∧
    ((Part001.updateMarket now mid nm ex fw s).2.1.volume = ex.volume) ∧
    ((Part001.updateMarket now mid nm ex fw s).2.1.tags = ex.tags) ∧
    ((Part001.updateMarket now mid nm ex fw s).2.1.resolveDate = ex.resolveDate) ∧
    ((Part001.updateMarket now mid nm ex fw s).2.1.probability = nm.Price) ∧
    ((Part001.updateMarket now mid nm ex fw s).2.1.lastUpdated = now) ∧
    ((Part001.updateMarket now mid nm ex fw s).2.1.previousProbability
        = some ex.probability) ∧
    ((Part001.updateMarket now mid nm ex fw s).2.1.changeDelta
        = some (nm.Price - ex.probability)) := by
  rw [Part001.updateMarket]
  split
  · exact ⟨rfl, rfl, rfl, rfl, rfl, rfl, rfl, rfl, rfl, rfl⟩
  · exact ⟨rfl, rfl, rfl, rfl, rfl, rfl, rfl, rfl, rfl, rfl⟩

/-- **C6** (corrected), counterexample: the claim states that EVERY
reconciliation cycle leaves a past-resolved record's probability
unchanged; but the `my-calendar` `updateMarkets` cycle performs no
resolve-date check at all.  A record resolving on 2020-01-01 (in the past
relative to today 2026-10-11, so `isMarketResolved` holds for it) is
still matched and updated: the cycle counts it as updated and the written
document's probability becomes the upstream `0.75` instead of the stored
`0.5`. -/
theorem myCalendar_updates_past_resolved_record :
    (Part001.isMarketResolved (some (.ymd 2020 1 1)) (some (.ymd 2020 1 1))
        1760000000 2026 10 11 = true) ∧
    ((MyCalendar.processNormalized 1760000000
        [{ id := "d1", title := "t", probability := 1/2,
           resolveDate := some (.ymd 2020 1 1), lastUpdated := 0 }] []
        (⟨0, 0, 0⟩, [])
        { marketId := "d1", Catalyst_Name := "c", Question := "q", Price := 3/4,
          Volume := .num 25000, EndDate := none, Tags := "" }).1.updated = 1) ∧
    ((MyCalendar.updateMarket 1760000000 "d1"
        { marketId := "d1", Catalyst_Name := "c", Question := "q", Price := 3/4,
          Volume := .num 25000, EndDate := none, Tags := "" }
        { id := "d1", title := "t", probability := 1/2,
          resolveDate := some (.ymd 2020 1 1), lastUpdated := 0 }
        [] []).2.1.probability = 3/4) ∧
    ((3:ℚ)/4) ≠ 1/2 := by
  refine ⟨by decide, ?_, ?_, by norm_num⟩
  · rw [MyCalendar.processNormalized]
    with_unfolding_all decide
  · rw [MyCalendar.updateMarket]
    rfl

/-- **C6** (corrected), amended claim: past-date protection holds on the
`src/unnamed/part_001` reconciliation cycle: for every persisted record
whose resolve date is already in the past relative to the current date
(calendar-day granularity for plain dates, exact instant comparison for
dates with a time component — i.e. `isMarketResolved` returns `true`),
the per-record reconciliation step skips the record entirely, leaving its
probability unchanged even if upstream reports a different value for the
matching id; the `my-calendar` cycle performs no such check (see the
counterexample). -/
theorem part001_skips_resolved_records (now tY tM tD : ℤ) (ex : MarketData)
    (g : Option GammaMarket) (fw : List String) (s : List MarketShock)
    (h : Part001.isMarketResolved ex.resolveDate ex.resolveDate now tY tM tD = true) :
    Part001.processRecord now tY tM tD ex g fw s = (none, s) := by
  rw [Part001.processRecord.eq_def]
  simp only [h, if_true]
  split <;> rfl

theorem part001_skips_resolved_records_witness :
    Part001.processRecord 1760000000 2026 10 11
      { id := "d1", title := "t", probability := 1/2,
        resolveDate := some (.ymd 2026 10 10), lastUpdated := 0 }
      (some { id := "g1", question := "q", yesPrice := some (3/4) }) [] []
      = (none, []) :=
  part001_skips_resolved_records 1760000000 2026 10 11
    { id := "d1", title := "t", probability := 1/2,
      resolveDate := some (.ymd 2026 10 10), lastUpdated := 0 }
    (some { id := "g1", question := "q", yesPrice := some (3/4) }) [] [] (by decide)

/-- **C3** (confirmed): a sub-market is retained by the mandatory filter
of `normalizeGammaEvent` iff its parsed volume is at least 20000, it is
not flagged closed, not flagged resolved, its yes-price lies strictly
between 0.01 and 0.99 (boundaries rejected), and its external id is
present in the known-id set; any single violated clause excludes it.
Every market in the normalizer's survivor list passed this filter.
(The hypotheses fix the parsed volume and the yes-price, as the claim
speaks of volumes parsed from numbers or currency-formatted strings.) -/
theorem marketPasses_characterisation (ids : List String) (m : GammaMarket) (v p : ℚ)
    (hv : volKeyOf m = some v) (hp : m.yesPrice = some p) :
    (Normalize2.marketPasses ids m = true ↔
      (20000 ≤ v ∧ m.closed = false ∧ m.resolved = false ∧
       1/100 < p ∧ p < 99/100 ∧ m.id ≠ "" ∧ m.id ∈ ids)) ∧
    (∀ e : GammaEvent, m ∈ Normalize2.validMarkets ids e →
      Normalize2.marketPasses ids m = true) := by
  constructor
  · have hb : volBelowMin m = decide (v < 20000) := by unfold volBelowMin; rw [hv]
    have hyp : jsNumOr0 m.yesPrice = p := by rw [jsNumOr0, hp]; rfl
    rw [Normalize2.marketPasses, hb, hyp]
    split_ifs with h1 h2 h3 h4 <;>
      simp_all [not_or, not_le, not_lt, Bool.or_eq_true, decide_eq_true_eq, and_assoc] <;>
      try tauto
    intro hc hr
    rcases h2 with h | h <;> simp_all
  · intro e hm
    rw [Normalize2.validMarkets] at hm
    exact List.of_mem_filter ((List.perm_insertionSort _ _).subset (List.take_subset 5 _ hm))

theorem marketPasses_characterisation_witness :
    (Normalize2.marketPasses ["a"]
      { id := "a", question := "q", volume := some (.num 20000),
        yesPrice := some (1/2) } = true) ∧
    (Normalize2.marketPasses ["a"]
      { id := "a", question := "q", volume := some (.num 19999),
        yesPrice := some (1/2) } = false) ∧
    (Normalize2.marketPasses ["a"]
      { id := "a", question := "q", volume := some (.num 20000),
        yesPrice := some (1/100) } = false) ∧
    (Normalize2.normalizeGammaEvent
      { title := "E",
        markets := [{ id := "a", question := "q", volume := some (.num 20000), yesPrice := some (1/2) }] }
      ["a"]).length = 1 := by
  refine ⟨?_, ?_, ?_, ?_⟩
  · exact (marketPasses_characterisation ["a"]
      { id := "a", question := "q", volume := some (.num 20000),
        yesPrice := some (1/2) } 20000 (1/2) rfl rfl).1.mpr
      ⟨by norm_num, rfl, rfl, by norm_num, by norm_num, by decide, by decide⟩
  · with_unfolding_all decide
  · with_unfolding_all decide
  · with_unfolding_all decide

/-! ### Ranking / cap (claim about `validMarkets`) -/

instance : IsTotal GammaMarket Normalize2.volDesc :=
  ⟨fun a b => le_total (volKeyQ b) (volKeyQ a)⟩

instance : IsTrans GammaMarket Normalize2.volDesc :=
  ⟨fun _ _ _ h1 h2 => le_trans h2 h1⟩

/-- The volume a normalized output record reports (numeric value of its
`Volume` field, with the same currency parse for strings). -/
def outKey (nm : NormalizedMarket2) : ℚ :=
  match nm.Volume with
  | .num q => q
  | .str s => (jsParseFloat (stripCurrency s)).getD 0

/-- **C7** (confirmed): for an event whose sub-markets (with numeric,
pairwise-distinct volumes) all pass the mandatory filters, normalization
returns the `min 5 n` highest-volume sub-markets in strictly descending
volume order: the volumes of the output are the first five entries of the
descending sort of all sub-market volumes. -/
theorem normalize_top5_descending (ids : List String) (e : GammaEvent)
    (htitle : e.title ≠ "")
    (hnum : ∀ m ∈ e.markets, ∃ q : ℚ, m.volume = some (.num q))
    (hpass : ∀ m ∈ e.markets, Normalize2.marketPasses ids m = true)
    (hdist : (e.markets.map volKeyQ).Nodup) :
    ((Normalize2.normalizeGammaEvent e ids).map outKey =
      (List.insertionSort (fun a b : ℚ => b ≤ a) (e.markets.map volKeyQ)).take 5) ∧
    ((Normalize2.normalizeGammaEvent e ids).map outKey).Sorted (fun a b => b < a) ∧
    (Normalize2.normalizeGammaEvent e ids).length = min 5 e.markets.length := by
  haveI : IsTotal ℚ fun a b : ℚ => b ≤ a := ⟨fun a b => le_total b a⟩
  haveI : IsTrans ℚ fun a b : ℚ => b ≤ a := ⟨fun _ _ _ hab hbc => le_trans hbc hab⟩
  haveI : IsAntisymm ℚ fun a b : ℚ => b ≤ a := ⟨fun _ _ hab hba => le_antisymm hba hab⟩
  have hfilter : e.markets.filter (Normalize2.marketPasses ids) = e.markets :=
    List.filter_eq_self.mpr hpass
  have hvalid : Normalize2.validMarkets ids e =
      (List.insertionSort Normalize2.volDesc e.markets).take 5 := by
    rw [Normalize2.validMarkets, hfilter]
  have hperm : List.Perm (List.insertionSort Normalize2.volDesc e.markets) e.markets :=
    List.perm_insertionSort _ _
  have hout : Normalize2.normalizeGammaEvent e ids =
      (Normalize2.validMarkets ids e).map fun m =>
        { Catalyst_Name := e.title, Question := m.question,
          Price := round2 (jsNumOr0 m.yesPrice), Volume := jsVolOr0 m.volume,
          EndDate := m.endDate, Tags := tagsToString e.tags } := by
    rw [Normalize2.normalizeGammaEvent, if_neg htitle]
  have houtKey : ∀ m ∈ e.markets,
      outKey { Catalyst_Name := e.title, Question := m.question,
               Price := round2 (jsNumOr0 m.yesPrice), Volume := jsVolOr0 m.volume,
               EndDate := m.endDate, Tags := tagsToString e.tags } = volKeyQ m := by
    intro m hm
    obtain ⟨q, hq⟩ := hnum m hm
    rw [volKeyQ, volKeyOf, hq]
    rfl
  have hmapkeys :
      (Normalize2.normalizeGammaEvent e ids).map outKey =
        ((List.insertionSort Normalize2.volDesc e.markets).map volKeyQ).take 5 := by
    rw [hout, hvalid, List.map_map]
    simp only [Function.comp_def]
    rw [List.map_congr_left fun m hm =>
      houtKey m (hperm.subset (List.take_subset 5 _ hm))]
    exact List.map_take volKeyQ _ 5
  have hsortkeys :
      ((List.insertionSort Normalize2.volDesc e.markets).map volKeyQ).Sorted
        fun a b : ℚ => b ≤ a :=
    List.Pairwise.map volKeyQ (fun _ _ h => h)
      (List.sorted_insertionSort Normalize2.volDesc e.markets)
  have hkeysperm :
      List.Perm ((List.insertionSort Normalize2.volDesc e.markets).map volKeyQ)
        (List.insertionSort (fun a b : ℚ => b ≤ a) (e.markets.map volKeyQ)) :=
    (hperm.map volKeyQ).trans (List.perm_insertionSort _ _).symm
  have hkeyseq :
      (List.insertionSort Normalize2.volDesc e.markets).map volKeyQ =
        List.insertionSort (fun a b : ℚ => b ≤ a) (e.markets.map volKeyQ) :=
    List.eq_of_perm_of_sorted hkeysperm hsortkeys (List.sorted_insertionSort _ _)
  have hnodup : ((List.insertionSort Normalize2.volDesc e.markets).map volKeyQ).Nodup :=
    ((hperm.map volKeyQ).nodup_iff).mpr hdist
  have hstrict :
      ((List.insertionSort Normalize2.volDesc e.markets).map volKeyQ).Pairwise
        fun a b : ℚ => b < a := by
    refine List.Pairwise.imp₂ (fun a b hle hne => lt_of_le_of_ne hle (Ne.symm hne))
      hsortkeys hnodup
  refine ⟨by rw [hmapkeys, hkeyseq], ?_, ?_⟩
  · rw [hmapkeys]
    exact List.Pairwise.sublist (List.take_sublist 5 _) hstrict
  · rw [hout, hvalid, List.length_map, List.length_take, hperm.length_eq]

/-- The 8-market event used to exercise the top-5 cap. -/
def capDemoEvent : GammaEvent :=
  { title := "E",
    markets :=
      [{ id := "m1", question := "q1", volume := some (.num 21000), yesPrice := some (1/2) },
       { id := "m2", question := "q2", volume := some (.num 35000), yesPrice := some (1/2) },
       { id := "m3", question := "q3", volume := some (.num 27000), yesPrice := some (1/2) },
       { id := "m4", question := "q4", volume := some (.num 90000), yesPrice := some (1/2) },
       { id := "m5", question := "q5", volume := some (.num 41000), yesPrice := some (1/2) },
       { id := "m6", question := "q6", volume := some (.num 60000), yesPrice := some (1/2) },
       { id := "m7", question := "q7", volume := some (.num 25000), yesPrice := some (1/2) },
       { id := "m8", question := "q8", volume := some (.num 33000), yesPrice := some (1/2) }] }

def capDemoIds : List String := ["m1", "m2", "m3", "m4", "m5", "m6", "m7", "m8"]

theorem normalize_top5_descending_witness :
    ((Normalize2.normalizeGammaEvent capDemoEvent capDemoIds).map outKey).Sorted
      (fun a b => b < a) ∧
    (Normalize2.normalizeGammaEvent capDemoEvent capDemoIds).length = 5 ∧
    (Normalize2.normalizeGammaEvent capDemoEvent capDemoIds).map outKey =
      [90000, 60000, 41000, 35000, 33000] := by
  have h := normalize_top5_descending capDemoIds capDemoEvent
    (by decide)
    (by
      intro m hm
      simp only [capDemoEvent, List.mem_cons, List.not_mem_nil, or_false] at hm
      rcases hm with rfl | rfl | rfl | rfl | rfl | rfl | rfl | rfl <;> exact ⟨_, rfl⟩)
    (by
      intro m hm
      simp only [capDemoEvent, List.mem_cons, List.not_mem_nil, or_false] at hm
      rcases hm with rfl | rfl | rfl | rfl | rfl | rfl | rfl | rfl <;>
        with_unfolding_all decide)
    (by with_unfolding_all decide)
  refine ⟨h.2.1, by rw [h.2.2]; rfl, ?_⟩
  rw [h.1]
  norm_num [capDemoEvent, volKeyQ, volKeyOf, List.insertionSort, List.orderedInsert]

/-- **C8** (confirmed): `updateMarkets` always returns the aggregate
counters and never propagates an exception.  First conjunct: when the one
unguarded Firestore read fails, the top-level `catch` converts it into
the structured result `{updated := 0, errors := 1, shocks := 0}` (one
error counted on the partial result).  Second conjunct: a record whose
write throws (here: whose document id is in the injected `failWrites`
set) contributes exactly one error and the fold proceeds to the next
record from that state — no per-record failure aborts the cycle. -/
theorem updateMarkets_error_resilience
    (now : ℤ) (ids : List String) (events : List GammaEvent) (fw : List String)
    (s0 : List MarketShock) (docs : List MarketData)
    (acc : UpdateResult × List MarketShock)
    (nm : NormalizedMarket) (nms : List NormalizedMarket) (ex : MarketData)
    (hids : ids ≠ [])
    (hfind : docs.find? (fun d => d.id = nm.marketId) = some ex)
    (hfail : ex.id ∈ fw) :
    ((MyCalendar.updateMarkets now ids (.error ()) events fw s0).1 = ⟨0, 1, 0⟩) ∧
    ((nm :: nms).foldl (MyCalendar.processNormalized now docs fw) acc =
      nms.foldl (MyCalendar.processNormalized now docs fw)
        ({ acc.1 with errors := acc.1.errors + 1 },
         (detectShock now ex.id ex.probability nm.Price acc.2).2)) := by
  constructor
  · cases ids with
    | nil => exact absurd rfl hids
    | cons a l => rfl
  · rw [List.foldl_cons]
    have hstep : MyCalendar.processNormalized now docs fw acc nm =
        ({ acc.1 with errors := acc.1.errors + 1 },
         (detectShock now ex.id ex.probability nm.Price acc.2).2) := by
      rw [MyCalendar.processNormalized.eq_def, hfind]
      simp only [MyCalendar.updateMarket, if_pos hfail, Bool.false_eq_true, if_false]
    rw [hstep]

def resDemoDoc1 : MarketData := { id := "d1", title := "t1", probability := 0 }

def resDemoDoc2 : MarketData := { id := "d2", title := "t2", probability := 0 }

def resDemoNm1 : NormalizedMarket :=
  { marketId := "d1", Catalyst_Name := "c", Question := "q1", Price := 0,
    Volume := .num 25000, EndDate := none, Tags := "" }

def resDemoNm2 : NormalizedMarket :=
  { marketId := "d2", Catalyst_Name := "c", Question := "q2", Price := 1,
    Volume := .num 25000, EndDate := none, Tags := "" }

theorem updateMarkets_error_resilience_witness :
    ((MyCalendar.updateMarkets 10 ["x"] (.error ()) [] ["d1"] []).1 = ⟨0, 1, 0⟩) ∧
    (([resDemoNm1, resDemoNm2].foldl
        (MyCalendar.processNormalized 10 [resDemoDoc1, resDemoDoc2] ["d1"])
        (⟨0, 0, 0⟩, [])).1.errors = 1) ∧
    (([resDemoNm1, resDemoNm2].foldl
        (MyCalendar.processNormalized 10 [resDemoDoc1, resDemoDoc2] ["d1"])
        (⟨0, 0, 0⟩, [])).1.updated = 1) := by
  have h := updateMarkets_error_resilience 10 ["x"] [] ["d1"] [] [resDemoDoc1, resDemoDoc2]
    (⟨0, 0, 0⟩, []) resDemoNm1 [resDemoNm2] resDemoDoc1
    (by decide) (by with_unfolding_all decide) (by decide)
  refine ⟨h.1, ?_, ?_⟩
  · rw [h.2]
    with_unfolding_all decide
  · rw [h.2]
    with_unfolding_all decide

/-! ### Shock-window invariant (sequences of detector operations) -/

/-- An operation on the shock-detector's module state. -/
inductive ShockOp where
  | detect (marketId : String) (previous newP : ℚ)
  | check
  | cleanup

/-- Run one operation at time `now` on the retained shock list, keeping
only the state effect. -/
def runOp (now : ℤ) (op : ShockOp) (s : List MarketShock) : List MarketShock :=
  match op with
  | .detect id p n => (detectShock now id p n s).2
  | .check => (checkShockAlert now s).2
  | .cleanup => cleanupOldShocks now s

/-- Run a timestamped sequence of operations from the empty list (the
module's initial state). -/
def runTrace (trace : List (ℤ × ShockOp)) : List MarketShock :=
  trace.foldl (fun s p => runOp p.1 p.2 s) []

/-- A retained shock is well-formed: its `delta` is the absolute change
and meets the 0.05 threshold. -/
def GoodShock (e : MarketShock) : Prop :=
  e.delta = |e.newProbability - e.previousProbability| ∧ SHOCK_THRESHOLD ≤ e.delta

/-- State invariant at time `t`: every retained shock is well-formed and
stamped no later than `t`, and timestamps are non-decreasing along the
list. -/
def ShockStateOK (t : ℤ) (s : List MarketShock) : Prop :=
  (∀ e ∈ s, GoodShock e ∧ e.timestamp ≤ t) ∧
  s.Pairwise fun a b => a.timestamp ≤ b.timestamp

/-- Times along a trace are non-decreasing, starting no earlier than
`t`. -/
def TimesMono : ℤ → List (ℤ × ShockOp) → Prop
  | _, [] => True
  | t, u :: rest => t ≤ u.1 ∧ TimesMono u.1 rest

theorem pruneFront_sublist (c : ℤ) (s : List MarketShock) : (pruneFront c s).Sublist s := by
  induction s with
  | nil => exact List.Sublist.refl _
  | cons a rest ih =>
    rw [pruneFront]
    split
    · exact List.Sublist.cons a ih
    · exact List.Sublist.refl _

theorem checkShockAlert_preserves_state (now : ℤ) (s : List MarketShock) :
    (checkShockAlert now s).2 = s := by
  rw [checkShockAlert]
  split <;> rfl

theorem shockStateOK_mono {t u : ℤ} {s : List MarketShock} (h : ShockStateOK t s)
    (htu : t ≤ u) : ShockStateOK u s :=
  ⟨fun e he => ⟨(h.1 e he).1, le_trans (h.1 e he).2 htu⟩, h.2⟩

theorem shockStateOK_sublist {t : ℤ} {s s2 : List MarketShock} (hsub : s2.Sublist s)
    (h : ShockStateOK t s) : ShockStateOK t s2 :=
  ⟨fun e he => h.1 e (hsub.subset he), List.Pairwise.sublist hsub h.2⟩

theorem runOp_preserves (t u : ℤ) (op : ShockOp) (s : List MarketShock)
    (h : ShockStateOK t s) (htu : t ≤ u) : ShockStateOK u (runOp u op s) := by
  have h2 := shockStateOK_mono h htu
  cases op with
  | check =>
    simp only [runOp, checkShockAlert_preserves_state]
    exact h2
  | cleanup => exact shockStateOK_sublist (pruneFront_sublist _ _) h2
  | detect id p n =>
    simp only [runOp]
    rw [detectShock]
    split
    next hthr =>
      refine shockStateOK_sublist (pruneFront_sublist _ _) ?_
      constructor
      · intro e he
        rcases List.mem_append.mp he with h1 | h1
        · exact h2.1 e h1
        · rw [List.mem_singleton] at h1
          subst h1
          exact ⟨⟨rfl, hthr⟩, le_refl u⟩
      · rw [List.pairwise_append]
        refine ⟨h2.2, List.pairwise_singleton _ _, ?_⟩
        intro a ha b hb
        rw [List.mem_singleton] at hb
        subst hb
        exact (h2.1 a ha).2
    next => exact h2

theorem runTrace_aux : ∀ (trace : List (ℤ × ShockOp)) (t : ℤ) (s : List MarketShock),
    ShockStateOK t s → TimesMono t trace →
    ∃ u, ShockStateOK u (trace.foldl (fun st p => runOp p.1 p.2 st) s) := by
  intro trace
  induction trace with
  | nil => exact fun t s h _ => ⟨t, h⟩
  | cons p rest ih =>
    intro t s h hm
    rw [List.foldl_cons]
    exact ih p.1 (runOp p.1 p.2 s) (runOp_preserves t p.1 p.2 s h hm.1) hm.2

theorem timesMono_of_chain : ∀ (p : ℤ × ShockOp) (rest : List (ℤ × ShockOp)),
    List.Chain' (fun a b : ℤ × ShockOp => a.1 ≤ b.1) (p :: rest) → TimesMono p.1 rest := by
  intro p rest
  induction rest generalizing p with
  | nil => exact fun _ => trivial
  | cons q rest ih =>
    intro h
    rw [List.chain'_cons] at h
    exact ⟨h.1, ih q h.2⟩

/-- **C9** (confirmed): after any sequence of `detectShock`,
`checkShockAlert` and `cleanupOldShocks` calls starting from the empty
list (with call times non-decreasing, as `Date.now()` is), every retained
shock has `delta = |newProbability - previousProbability| ≥ 0.05`, and
the list is ordered by non-decreasing timestamp: entries are only
appended stamped with the current time and only removed from the
front. -/
theorem shock_window_invariant (trace : List (ℤ × ShockOp))
    (hmono : trace.Chain' fun a b => a.1 ≤ b.1) :
    (∀ e ∈ runTrace trace, GoodShock e) ∧
    (runTrace trace).Pairwise fun a b => a.timestamp ≤ b.timestamp := by
  have hex : ∃ u, ShockStateOK u (runTrace trace) := by
    cases trace with
    | nil => exact ⟨0, fun e he => absurd he (List.not_mem_nil e), List.Pairwise.nil⟩
    | cons p rest =>
      exact runTrace_aux (p :: rest) p.1 []
        ⟨fun e he => absurd he (List.not_mem_nil e), List.Pairwise.nil⟩
        ⟨le_refl p.1, timesMono_of_chain p rest hmono⟩
  obtain ⟨u, h⟩ := hex
  exact ⟨fun e he => (h.1 e he).1, h.2⟩

theorem shock_window_invariant_witness :
    (∀ e ∈ runTrace [(0, .detect "a" 0 1), (1000, .check), (2000, .cleanup)], GoodShock e) ∧
    (runTrace [(0, .detect "a" 0 1), (1000, .check), (2000, .cleanup)]).Pairwise
      fun a b => a.timestamp ≤ b.timestamp :=
  shock_window_invariant [(0, .detect "a" 0 1), (1000, .check), (2000, .cleanup)]
    (by simp [List.chain'_cons])
